import Mathlib

/-!
# Verification of the TIDAL2026 asthma-forecaster web layer

This file gives a shallow embedding, in Lean 4, of the pure computation
performed by the TypeScript route handlers and helper libraries of the
TIDAL2026 repository, and proves (or refutes) the specified properties of
that computation.

Modelling conventions:
* JavaScript numbers are modelled as rationals (`ℚ`).  All the arithmetic
  the verified code performs (clamping, `Math.round`, division by powers of
  ten) is exact on the value ranges the claims are about, so the rational
  idealisation is faithful there.
* `Math.round` rounds half-way cases toward positive infinity, i.e.
  `⌊x + 1/2⌋`.
* Strings are Lean `String`s; `charCodeAt` sums are modelled with
  `Char.toNat` (identical on the ASCII strings these routes handle).
* Effectful route handlers are embedded as pure functions of all their
  ambient inputs (spawn results, parsed JSON, environment flags, the current
  date), returning a value describing the JSON response.
-/

set_option maxRecDepth 4000

/-!
Kernel-reducible rational arithmetic.  The `+ * / -` instances on `ℚ` do
not reduce inside the kernel (so `decide` cannot evaluate them), while
`Rat.divInt` and the order instances do.  The embeddings below therefore use
the wrappers `qAdd`, `qMul`, `qNeg`, `qDiv`, which are proved equal to the
standard operations so that symbolic proofs can move back and forth.
-/

def qAdd (a b : ℚ) : ℚ := Rat.divInt (a.num * b.den + b.num * a.den) (a.den * b.den)

def qMul (a b : ℚ) : ℚ := Rat.divInt (a.num * b.num) (a.den * b.den)

def qNeg (a : ℚ) : ℚ := Rat.divInt (-a.num) (a.den)

def qDiv (a b : ℚ) : ℚ := qMul a (Rat.divInt (b.den) (b.num))

/-- `10 ^ e` for an integer exponent, kernel-reducibly. -/
def qPowTen (e : ℤ) : ℚ :=
  if 0 ≤ e then ((10 ^ e.toNat : ℕ) : ℚ)
  else Rat.divInt 1 ((10 ^ (-e).toNat : ℕ) : ℤ)

/-- JavaScript `Math.round`: half-way cases round toward `+∞`. -/
def jsRound (q : ℚ) : ℤ := ⌊qAdd q (Rat.divInt 1 2)⌋

/-- JavaScript ASCII whitespace test (the characters relevant to the inputs
these routes handle). -/
def isWs (c : Char) : Bool := c = ' ' || c = '\t' || c = '\n' || c = '\r'

/-- JavaScript `String.prototype.trim` (ASCII whitespace). -/
def jsTrim (s : String) : String :=
  ⟨(s.data.dropWhile isWs).reverse.dropWhile isWs |>.reverse⟩

/-- Numeric value of a digit string (most significant first). -/
def digitsVal (ds : List Char) : ℕ :=
  ds.foldl (fun a c => 10 * a + (c.toNat - 48)) 0

/-- Value of an integer digit part together with a fraction digit part,
as in the decimal literal `ds.fs`. -/
def numValQ (ds fs : List Char) : ℚ :=
  qAdd (digitsVal ds : ℚ) (Rat.divInt (digitsVal fs : ℤ) ((10 ^ fs.length : ℕ) : ℤ))

/-- Strip leading whitespace (the `\s*` pieces of the regexes). -/
def chompWs (cs : List Char) : List Char := cs.dropWhile isWs

/-- Match the regex fragment `\d+(?:\.\d+)?` at the front of the input,
greedily, returning its value and the rest.  When a `.` is not followed by a
digit the optional fraction group is not taken and the dot is left in the
rest, exactly as a backtracking regex engine does. -/
def chompDecimal (cs : List Char) : Option (ℚ × List Char) :=
  let ds := cs.takeWhile Char.isDigit
  let r1 := cs.dropWhile Char.isDigit
  if ds = [] then none
  else
    match r1 with
    | '.' :: r2 =>
      let fs := r2.takeWhile Char.isDigit
      let r3 := r2.dropWhile Char.isDigit
      if fs = [] then some ((digitsVal ds : ℚ), r1)
      else some (numValQ ds fs, r3)
    | _ => some ((digitsVal ds : ℚ), r1)

namespace Bmi

/-! Embedding of `apps/web/src/lib/bmi.ts`. -/

/-- The `/^(\d+(?:\.\d+)?)\s*cm$/i` match of `parseHeightToMeters`. -/
def cmMatch (cs : List Char) : Option ℚ :=
  match chompDecimal cs with
  | none => none
  | some (v, r) =>
    match chompWs r with
    | [a, b] =>
      if (a = 'c' || a = 'C') && (b = 'm' || b = 'M') then some v else none
    | _ => none

/-- The `/^(\d+(?:\.\d+)?)\s*m$/i` match of `parseHeightToMeters`. -/
def mMatch (cs : List Char) : Option ℚ :=
  match chompDecimal cs with
  | none => none
  | some (v, r) =>
    match chompWs r with
    | [a] => if a = 'm' || a = 'M' then some v else none
    | _ => none

/-- Optional apostrophe `['’]?`. -/
def chompQuote (cs : List Char) : List Char :=
  match cs with
  | c :: r => if c = '\'' || c = '’' then r else cs
  | [] => cs

/-- The trailing `(?:["”]|in\.?)?$` alternatives of the feet-and-inches
regex (case-insensitive `in`). -/
def inchSuffixEnd (cs : List Char) : Bool :=
  match cs with
  | [] => true
  | [c] => c = '"' || c = '”'
  | [a, b] => (a = 'i' || a = 'I') && (b = 'n' || b = 'N')
  | [a, b, c] => (a = 'i' || a = 'I') && (b = 'n' || b = 'N') && c = '.'
  | _ => false

/-- The `/^(\d+)\s*['’]?\s*(\d+(?:\.\d+)?)\s*(?:["”]|in\.?)?$/i`
match: feet and inches. -/
def ftInMatch (cs : List Char) : Option (ℕ × ℚ) :=
  let ds := cs.takeWhile Char.isDigit
  let r1 := cs.dropWhile Char.isDigit
  if ds = [] then none
  else
    let r2 := chompWs (chompQuote (chompWs r1))
    match chompDecimal r2 with
    | none => none
    | some (inch, r3) =>
      if inchSuffixEnd (chompWs r3) then some (digitsVal ds, inch) else none

/-- The `/^(\d+)\s*['’]?\s*$/i` match: feet only. -/
def ftOnlyMatch (cs : List Char) : Option ℕ :=
  let ds := cs.takeWhile Char.isDigit
  let r1 := cs.dropWhile Char.isDigit
  if ds = [] then none
  else if chompWs (chompQuote (chompWs r1)) = [] then some (digitsVal ds)
  else none

/-- `parseHeightToMeters` from `bmi.ts`: parse a free-form height string to
meters, `none` where the TypeScript returns `null`. -/
def parseHeightToMeters (height : String) : Option ℚ :=
  if jsTrim height = "" then none
  else
    match cmMatch (jsTrim height).data with
    | some cm => if 0 < cm ∧ cm < 300 then some (qDiv cm 100) else none
    | none =>
      match mMatch (jsTrim height).data with
      | some m => if 0 < m ∧ m < 3 then some m else none
      | none =>
        match ftInMatch (jsTrim height).data with
        | some (ft, inch) =>
          if 2 ≤ ft ∧ ft ≤ 8 ∧ 0 ≤ inch ∧ inch < 12 then
            some (qAdd (qMul (ft : ℚ) (Rat.divInt 3048 10000))
                       (qMul inch (Rat.divInt 254 10000)))
          else none
        | none =>
          match ftOnlyMatch (jsTrim height).data with
          | some ft =>
            if 2 ≤ ft ∧ ft ≤ 8 then
              some (qMul (ft : ℚ) (Rat.divInt 3048 10000))
            else none
          | none => none

/-- The `/^(\d+(?:\.\d+)?)\s*kg$/i` match of `parseWeightToKg`. -/
def kgMatch (cs : List Char) : Option ℚ :=
  match chompDecimal cs with
  | none => none
  | some (v, r) =>
    match chompWs r with
    | [a, b] =>
      if (a = 'k' || a = 'K') && (b = 'g' || b = 'G') then some v else none
    | _ => none

/-- The `/^(\d+(?:\.\d+)?)\s*(?:lbs?|lb)?$/i` match of `parseWeightToKg`:
a decimal with an optional `lb`/`lbs` suffix. -/
def lbsMatch (cs : List Char) : Option ℚ :=
  match chompDecimal cs with
  | none => none
  | some (v, r) =>
    match chompWs r with
    | [] => some v
    | [a, b] =>
      if (a = 'l' || a = 'L') && (b = 'b' || b = 'B') then some v else none
    | [a, b, c] =>
      if (a = 'l' || a = 'L') && (b = 'b' || b = 'B') && (c = 's' || c = 'S')
      then some v else none
    | _ => none

/-- JavaScript `parseFloat`: skip leading whitespace, optional sign, then a
decimal-literal prefix `\d+(\.\d*)? | \.\d+` with an optional well-formed
exponent.  `none` plays the role of `NaN`.  (The special `Infinity` literal,
which has no rational value, is not modelled; none of the verified claims
depends on it.) -/
def jsParseFloat (s : String) : Option ℚ :=
  let cs := chompWs s.data
  let sign : ℚ × List Char :=
    match cs with
    | '-' :: r => (-1, r)
    | '+' :: r => (1, r)
    | _ => (1, cs)
  let body := sign.2
  let ds := body.takeWhile Char.isDigit
  let r1 := body.dropWhile Char.isDigit
  let mantissa : Option (ℚ × List Char) :=
    match r1 with
    | '.' :: r2 =>
      let fs := r2.takeWhile Char.isDigit
      let r3 := r2.dropWhile Char.isDigit
      if ds = [] ∧ fs = [] then none
      else some (numValQ ds fs, r3)
    | _ => if ds = [] then none else some ((digitsVal ds : ℚ), r1)
  match mantissa with
  | none => none
  | some (v, rest) =>
    let expPart : ℤ :=
      match rest with
      | e :: r4 =>
        if e = 'e' || e = 'E' then
          let esign : ℤ × List Char :=
            match r4 with
            | '-' :: r5 => (-1, r5)
            | '+' :: r5 => (1, r5)
            | _ => (1, r4)
          let eds := esign.2.takeWhile Char.isDigit
          if eds = [] then 0 else esign.1 * (digitsVal eds : ℤ)
        else 0
      | _ => 0
    some (qMul (qMul sign.1 v) (qPowTen expPart))

/-- `parseWeightToKg` from `bmi.ts`: parse a free-form weight string to
kilograms, `none` where the TypeScript returns `null`. -/
def parseWeightToKg (weight : String) : Option ℚ :=
  if jsTrim weight = "" then none
  else
    match kgMatch (jsTrim weight).data with
    | some kg => if 0 < kg ∧ kg < 500 then some kg else none
    | none =>
      match lbsMatch (jsTrim weight).data with
      | some lbs =>
      if 0 < lbs ∧ lbs < 1500 then some (qDiv lbs (Rat.divInt 2205 1000))
      else none
      | none =>
        match jsParseFloat (jsTrim weight) with
        | none => none
        | some num =>
          if num ≤ 0 then none
          else if num < 150 then (if num < 300 then some num else none)
          else some (qDiv num (Rat.divInt 2205 1000))

/-- `computeBmi` from `bmi.ts`: BMI from height in meters and weight in kg,
rounded to one decimal, `none` when either input is missing or the result is
implausible. -/
def computeBmi (heightM weightKg : Option ℚ) : Option ℚ :=
  match heightM, weightKg with
  | some h, some w =>
    if h ≤ 0 then none
    else
      let value := qDiv w (qMul h h)
      if 10 < value ∧ value < 80 then
        some (Rat.divInt (jsRound (qMul value 10)) 10)
      else none
  | _, _ => none

end Bmi

/-! ## Calendar dates

The routes render dates with `toLocalDateStr` (zero-padded `YYYY-MM-DD`) and
step them with `d.setDate(d.getDate() + 1)`, i.e. ordinary Gregorian
day-by-day succession. -/

structure Ymd where
  y : ℕ
  m : ℕ
  d : ℕ
deriving DecidableEq

def isLeap (y : ℕ) : Bool := (y % 4 = 0 && y % 100 ≠ 0) || y % 400 = 0

def daysInMonth (y m : ℕ) : ℕ :=
  if m = 2 then (if isLeap y then 29 else 28)
  else if m = 4 ∨ m = 6 ∨ m = 9 ∨ m = 11 then 30
  else 31

/-- Gregorian successor of a calendar date. -/
def nextDay (a : Ymd) : Ymd :=
  if a.d < daysInMonth a.y a.m then ⟨a.y, a.m, a.d + 1⟩
  else if a.m < 12 then ⟨a.y, a.m + 1, 1⟩
  else ⟨a.y + 1, 1, 1⟩

def addDays (a : Ymd) : ℕ → Ymd
  | 0 => a
  | n + 1 => nextDay (addDays a n)

/-- A well-formed calendar date. -/
def Ymd.valid (a : Ymd) : Prop :=
  1 ≤ a.m ∧ a.m ≤ 12 ∧ 1 ≤ a.d ∧ a.d ≤ daysInMonth a.y a.m

instance (a : Ymd) : Decidable a.valid := by
  unfold Ymd.valid; infer_instance

def digitChar (n : ℕ) : Char :=
  match n with
  | 0 => '0' | 1 => '1' | 2 => '2' | 3 => '3' | 4 => '4'
  | 5 => '5' | 6 => '6' | 7 => '7' | 8 => '8' | _ => '9'

/-- `String(n).padStart(2, "0")` for `n ≤ 99`. -/
def pad2 (n : ℕ) : List Char := [digitChar (n / 10 % 10), digitChar (n % 10)]

/-- The four decimal digits of a year `n ≤ 9999` (`String(d.getFullYear())`). -/
def pad4 (n : ℕ) : List Char :=
  [digitChar (n / 1000 % 10), digitChar (n / 100 % 10),
   digitChar (n / 10 % 10), digitChar (n % 10)]

/-- `toLocalDateStr` from the route files: zero-padded `YYYY-MM-DD`
(for the years `≤ 9999` these routes handle). -/
def toLocalDateStr (a : Ymd) : String :=
  ⟨pad4 a.y ++ '-' :: (pad2 a.m ++ '-' :: pad2 a.d)⟩

/-- Lexicographic (code-unit) strict order on strings; on the ASCII date
strings of these routes this is exactly what `localeCompare` orders by. -/
def lexLt : List Char → List Char → Bool
  | [], [] => false
  | [], _ :: _ => true
  | _ :: _, [] => false
  | a :: as, b :: bs =>
    a.toNat < b.toNat || (a.toNat = b.toNat && lexLt as bs)

def dateLtB (s t : String) : Bool := lexLt s.data t.data

/-- Decidable "strictly ascending by date string" on a list. -/
def strAscending : List String → Bool
  | [] => true
  | [_] => true
  | a :: b :: r => dateLtB a b && strAscending (b :: r)

/-- Insert into a list in front of the first element `x` may precede:
the comparison structure of `Array.prototype.sort` with a `localeCompare`
comparator (a stable comparison sort). -/
def insertLe {α : Type} (le : α → α → Bool) (x : α) : List α → List α
  | [] => [x]
  | y :: ys => if le x y then x :: y :: ys else y :: insertLe le x ys

def sortByLe {α : Type} (le : α → α → Bool) : List α → List α
  | [] => []
  | x :: xs => insertLe le x (sortByLe le xs)

/-! ## `/api/risk/personalized` (route.ts, current revision) -/

/-- One element of the JSON output array of the predictor. -/
structure PredRow where
  user_id : String
  date : String
  risk : Option ℚ
  flare_day : Option ℚ
  probability : Option ℚ
deriving DecidableEq

structure RiskDisplay where
  score : ℚ
  level : String
  label : String
deriving DecidableEq

namespace Personalized

/-- `toFloatScore` of the personalized route: two decimal places. -/
def toFloatScore (n : ℚ) : ℚ := Rat.divInt (jsRound (qMul n 100)) 100

/-- `toRiskDisplay` of the personalized route: raw values `≤ 0` become 1.5,
the rest is clamped to `[1,5]`, rounded, and bucketed into tiers.
(The `targetCol` argument is accepted and ignored, as in the source.) -/
def toRiskDisplay (value : ℚ) (targetCol : String) : RiskDisplay :=
  let raw := if value ≤ 0 then Rat.divInt 3 2 else value
  let score := toFloatScore (min 5 (max 1 raw))
  let level :=
    if score ≤ 2 then ("low") else if score ≤ 4 then ("moderate") else ("high")
  let label :=
    if level = "low" then ("Low")
    else if level = "moderate" then ("Moderate") else ("High")
  { score := score, level := level, label := label }

structure DayRisk where
  score : ℚ
  level : String
  label : String
  probability : Option ℚ
deriving DecidableEq

/-- One entry of the `days` array of the response (`activeRiskFactors` is always
the empty array in this route and is omitted). -/
structure DayEntry where
  date : String
  risk : DayRisk
deriving DecidableEq

/-- The JSON body (plus HTTP status) this route responds with. -/
structure RespBody where
  status : ℕ
  start : String
  days : List DayEntry
  fromModel : Bool
  fallbackReason : Option String
deriving DecidableEq

/-- The hard-coded `levels` table of `fallbackDays`. -/
def levels : List RiskDisplay :=
  [ ⟨Rat.divInt 3 2, "low", "Low"⟩,
    ⟨2, "low", "Low"⟩,
    ⟨Rat.divInt 5 2, "moderate", "Moderate"⟩,
    ⟨3, "moderate", "Moderate"⟩,
    ⟨Rat.divInt 7 2, "moderate", "Moderate"⟩,
    ⟨4, "high", "High"⟩,
    ⟨Rat.divInt 9 2, "high", "High"⟩ ]

/-- `fallbackDays`: seven synthesized days starting today, cycling through
the `levels` table; `fallbackReason` is attached only in development and only
when a non-empty reason string was passed. -/
def fallbackDays (now : Ymd) (isDev : Bool) (debugStderr : Option String) :
    RespBody :=
  { status := 200
    start := toLocalDateStr now
    days := (List.range 7).map (fun i =>
      let l := (levels.getD (i % levels.length)) ⟨0, "", ""⟩
      { date := toLocalDateStr (addDays now i)
        risk := ⟨toFloatScore l.score, l.level, l.label, none⟩ })
    fromModel := false
    fallbackReason :=
      match debugStderr with
      | some s => if isDev ∧ s ≠ "" then some s else none
      | none => none }

/-- The per-prediction mapping of the success path:
`value = p.risk ?? p.flare_day ?? 1`, displayed through `toRiskDisplay` and
`toFloatScore`, carrying the optional probability along. -/
def mkDay (targetCol : String) (p : PredRow) : DayEntry :=
  let value := p.risk.getD (p.flare_day.getD 1)
  let r := toRiskDisplay value targetCol
  { date := p.date
    risk := ⟨toFloatScore r.score, r.level, r.label,
             p.probability.map toFloatScore⟩ }

/-- Comparator closure of `days.sort((a, b) => a.date.localeCompare(b.date))`:
`a` may stay before `b` iff `b.date` is not strictly below `a.date`. -/
def predLe (a b : PredRow) : Bool := ! dateLtB b.date a.date

/-- The post-spawn portion of `GET /api/risk/personalized`, as a pure
function of its ambient inputs: the id of the current user, the spawn result
(exit status, trimmed stdout, trimmed stderr), the JSON-parse of stdout
(`none` when `JSON.parse` throws), the `NODE_ENV === "development"` flag and
the current local date. -/
def personalizedGET (userId : Option String) (status : Option ℤ)
    (stdout stderr : String) (parsed : Option (List PredRow)) (isDev : Bool)
    (now : Ymd) : RespBody :=
  if status = some 0 ∧ stdout ≠ "" then
    match parsed with
    | none => fallbackDays now isDev none
    | some list =>
      let forUser : List PredRow :=
        match userId with
        | some uid => list.filter (fun p => p.user_id = uid)
        | none => list
      if forUser.isEmpty then
        fallbackDays now isDev
          (some ("No predictions for current user (user_id mismatch?)"))
      else
        let hasRisk := forUser.any (fun p => p.risk.isSome)
        let targetCol := if hasRisk then ("risk") else ("flare_day")
        let days := ((sortByLe predLe forUser).take 7).map (mkDay targetCol)
        { status := 200
          start := ((days.head?.map DayEntry.date).getD (toLocalDateStr now))
          days := days
          fromModel := true
          fallbackReason := none }
  else fallbackDays now isDev (some stderr)

/-- Modelled from the spec: the output of `predict_personalized.py`
(`apps/D A T A/predict_personalized.py`, not part of the provided sources).
Per §4.3/§6 and §8 of the specification and the README of the repository
the script enumerates `days = 7` consecutive calendar dates
starting at the reference date and emits one
`{user_id, date: "YYYY-MM-DD", risk}` object per date for each user, never
dropping a day (days without environmental data are degraded, not omitted).
The per-day risk values are the outputs of the classifier, left abstract
(`risks`). -/
def specPredictOut (uid : String) (start : Ymd) (risks : ℕ → ℚ) : List PredRow :=
  (List.range 7).map (fun i =>
    { user_id := uid
      date := toLocalDateStr (addDays start i)
      risk := some (risks i)
      flare_day := none
      probability := none })

end Personalized

/-! ## `/api/risk` (checkins/risk route file) -/

namespace RiskApi

/-- Sum of `charCodeAt` over a string (ASCII date strings). -/
def charSum (s : String) : ℕ := (s.data.map Char.toNat).sum

/-- `toFloatScore` of the risk route: one decimal place. -/
def toFloatScore (n : ℚ) : ℚ := Rat.divInt (jsRound (qMul n 10)) 10

/-- `fallbackByDate`: the deterministic per-date placeholder of the risk
route.  Hash the character codes of the date string into `[1.5, 4.4]`, then clamp to
`[1, 5]`, and bucket with *strict* thresholds. -/
def fallbackByDate (d : String) : RiskDisplay :=
  let n := charSum d
  let score : ℚ := qAdd (Rat.divInt 3 2) (Rat.divInt ((n % 30 : ℕ) : ℤ) 10)
  let clamped := min 5 (max 1 score)
  let level :=
    if clamped < 2 then ("low") else if clamped < 4 then ("moderate") else ("high")
  let label :=
    if level = "low" then ("Low")
    else if level = "moderate" then ("Moderate") else ("High")
  { score := Rat.divInt (jsRound (qMul clamped 10)) 10, level := level,
    label := label }

structure RiskResp where
  date : String
  score : ℚ
  level : String
  label : String
  fromFallback : Bool
deriving DecidableEq

/-- The post-spawn portion of `GET /api/risk` for a validated `date`:
`payload` is the parsed stdout when the spawned predictor produced a JSON
object with a `risk` field (`none` on non-zero exit, empty stdout, JSON that
fails to parse, or JSON without `risk`); `status` and `stderr` are the rest
of the spawn result, which the handler only logs. -/
def riskGET (date : String) (payload : Option (String × RiskDisplay))
    (status : Option ℤ) (stderr : String) : RiskResp :=
  match payload with
  | some pr =>
    { date := pr.1, score := toFloatScore pr.2.score, level := pr.2.level,
      label := pr.2.label, fromFallback := false }
  | none =>
    let r := fallbackByDate date
    { date := date, score := toFloatScore r.score, level := r.level,
      label := r.label, fromFallback := true }

end RiskApi

/-! ## `/api/week` (part_009) -/

namespace WeekApi

/-- JavaScript `parseInt(s, 10)`: skip leading whitespace, optional sign,
then the maximal leading run of decimal digits; `none` (`NaN`) when that run
is empty. -/
def jsParseInt (s : String) : Option ℤ :=
  let cs := chompWs s.data
  let sign : ℤ × List Char :=
    match cs with
    | '-' :: r => (-1, r)
    | '+' :: r => (1, r)
    | _ => (1, cs)
  let ds := sign.2.takeWhile Char.isDigit
  if ds = [] then none else some (sign.1 * (digitsVal ds : ℤ))

/-- The `days` clamp of `GET /api/week`:
`Math.min(14, Math.max(1, daysParam ? parseInt(daysParam, 10) : 7)) || 7`.
An absent parameter and the empty string short-circuit to 7; `NaN`
propagates through `min`/`max` and is replaced by 7 by `|| 7`. -/
def weekDays (daysParam : Option String) : ℤ :=
  let parsed : Option ℤ :=
    match daysParam with
    | none => some 7
    | some s => if s = "" then some 7 else jsParseInt s
  match parsed with
  | none => 7
  | some v =>
    let c := min 14 (max 1 v)
    if c = 0 then 7 else c

/-- Match `\d+\.?\d*` at the front of the input: digits, an optional dot,
optional further digits. -/
def chompUnsignedNum (cs : List Char) : Option (ℚ × List Char) :=
  if cs.takeWhile Char.isDigit = [] then none
  else
    match cs.dropWhile Char.isDigit with
    | '.' :: rdot =>
      some (numValQ (cs.takeWhile Char.isDigit) (rdot.takeWhile Char.isDigit),
        rdot.dropWhile Char.isDigit)
    | r1 => some ((digitsVal (cs.takeWhile Char.isDigit) : ℚ), r1)

/-- Match `-?\d+\.?\d*` at the front of the input: optional sign, then an
unsigned decimal. -/
def chompSignedNum (cs : List Char) : Option (ℚ × List Char) :=
  match cs with
  | c :: r =>
    if c = '-' then
      match chompUnsignedNum r with
      | none => none
      | some vr => some (qNeg vr.1, vr.2)
    else chompUnsignedNum cs
  | [] => chompUnsignedNum cs

/-- The `/^(-?\d+\.?\d*),(-?\d+\.?\d*)$/` match of `toLocationId`. -/
def latLonMatch (cs : List Char) : Option (ℚ × ℚ) :=
  match chompSignedNum cs with
  | none => none
  | some (a, r) =>
    match r with
    | c :: r2 =>
      if c = ',' then
        match chompSignedNum r2 with
        | none => none
        | some (b, r3) => if r3 = [] then some (a, b) else none
      else none
    | [] => none

/-- The `/^\d{5}(-\d{4})?$/` test of `toLocationId`. -/
def zipMatch (cs : List Char) : Bool :=
  (cs.take 5).length = 5 && (cs.take 5).all Char.isDigit &&
    (match cs.drop 5 with
     | [] => true
     | c :: ext => c = '-' && ext.length = 4 && ext.all Char.isDigit)

/-- `s.replace` with pattern `-.*` and empty replacement: everything from
the first hyphen on is removed (the matched strings contain no newline, so
the dot-star reaches the end). -/
def stripFromDash (cs : List Char) : List Char :=
  cs.takeWhile (fun c => c ≠ '-')

/-- `Math.round(x * 10000) / 10000`, i.e. rounding to 4 decimal places. -/
def round4 (q : ℚ) : ℚ := Rat.divInt (jsRound (qMul q 10000)) 10000

/-- The default JavaScript string conversion of the number `k / 10000`
(an exact multiple of `1/10000`): minimal decimal expansion — integer part,
then the fraction digits with trailing zeros stripped; `-0` prints as `0`. -/
def fmtTimes10000 (k : ℤ) : List Char :=
  let mag := k.natAbs
  let ip := mag / 10000
  let fr := mag % 10000
  let ipD := Nat.toDigits 10 ip
  let frD := ((pad4 fr).reverse.dropWhile (fun c => c = '0')).reverse
  let core := if frD = [] then ipD else ipD ++ '.' :: frD
  if k < 0 then '-' :: core else core

/-- `toLocationId`: normalize a raw location to a location key.
`"lat,lon"` strings are rounded to 4 decimal places and joined with `_`,
5-digit ZIP codes (with optional `-XXXX` extension) become `zip_XXXXX`,
anything else passes through unchanged; empty/absent input gives `null`. -/
def toLocationId (location : Option String) : Option String :=
  match location with
  | none => none
  | some loc =>
    if jsTrim loc = "" then none
    else
      let s := jsTrim loc
      match latLonMatch s.data with
      | some ab =>
        some ⟨fmtTimes10000 (jsRound (qMul ab.1 10000)) ++
              '_' :: fmtTimes10000 (jsRound (qMul ab.2 10000))⟩
      | none =>
        if zipMatch s.data then
          some ⟨'z' :: 'i' :: 'p' :: '_' :: stripFromDash s.data⟩
        else some s

end WeekApi

/-! ## Check-in storage (`lib/users.ts`, part_014) and the check-in POST -/

namespace Users

/-- `DailyCheckInRecord` from `lib/users.ts`. -/
structure DailyCheckInRecord where
  date : String
  wheeze : ℚ
  cough : ℚ
  chestTightness : ℚ
  exerciseMinutes : ℚ
deriving DecidableEq

/-- The slice of a stored user document that check-ins touch. -/
structure StoredUser where
  email : String
  checkIns : List DailyCheckInRecord
deriving DecidableEq

/-- `updateOne` on the users collection: update the first document matching
the email filter, leave the rest unchanged (no upsert). -/
def updateFirst (db : List StoredUser)
    (email : String) (f : StoredUser → StoredUser) : List StoredUser :=
  match db with
  | [] => []
  | u :: us =>
    if u.email = email then f u :: us else u :: updateFirst us email f

/-- `addCheckIn` from `lib/users.ts`: `$push` the record onto the user's
`checkIns` array.  There is no per-date filter or unique index: the record
is appended unconditionally. -/
def addCheckIn (db : List StoredUser) (email : String)
    (checkIn : DailyCheckInRecord) : List StoredUser :=
  if email = "" then db
  else updateFirst db email
    (fun u => { u with checkIns := u.checkIns ++ [checkIn] })

/-- Number of stored check-ins a user has for a given calendar date. -/
def checkInsOn (db : List StoredUser) (email date : String) : ℕ :=
  match db.find? (fun u => u.email = email) with
  | none => 0
  | some u => (u.checkIns.filter (fun c => c.date = date)).length

/-- A JSON value as far as the check-in POST body is concerned: either a
number or something whose `typeof` is not `"number"`.  (JSON cannot encode
`NaN`/`Infinity`, so every number in a parsed body is finite.) -/
inductive Jv where
  | num (q : ℚ)
  | nonNum
deriving DecidableEq

/-- The request body of the check-in POST. -/
structure CheckInBody where
  date : Option String
  wheeze : Option Jv
  cough : Option Jv
  chestTightness : Option Jv
  exerciseMinutes : Option Jv
deriving DecidableEq

/-- `typeof x === "number" ? x : 0`. -/
def numOrZero (x : Option Jv) : ℚ :=
  match x with
  | some (Jv.num q) => q
  | _ => 0

/-- The normalization the check-in POST applies before storing:
`Math.min(hi, Math.max(0, ...))` on each numeric field, `body.date` or the current date. -/
def normalizeCheckIn (body : CheckInBody) (today : String) :
    DailyCheckInRecord :=
  { date := body.date.getD today
    wheeze := min 3 (max 0 (numOrZero body.wheeze))
    cough := min 3 (max 0 (numOrZero body.cough))
    chestTightness := min 3 (max 0 (numOrZero body.chestTightness))
    exerciseMinutes := min 1440 (max 0 (numOrZero body.exerciseMinutes)) }

end Users

/-- `typeof x === "number"` check on an optional JSON field of the
check-in body. -/
def jvIsNum (x : Option Users.Jv) : Bool :=
  match x with
  | some (Users.Jv.num _) => true
  | _ => false

/-! ## Agreement of the kernel-reducible wrappers with the standard operations -/

theorem qAdd_eq (a b : ℚ) : qAdd a b = a + b := by
  rw [qAdd, Rat.divInt_eq_div]
  have ha : ((a.den : ℚ)) ≠ 0 := by exact_mod_cast a.den_nz
  have hb : ((b.den : ℚ)) ≠ 0 := by exact_mod_cast b.den_nz
  conv_rhs => rw [← Rat.num_div_den a, ← Rat.num_div_den b]
  push_cast
  rw [div_add_div _ _ ha hb]
  ring_nf

theorem qMul_eq (a b : ℚ) : qMul a b = a * b := by
  rw [qMul, Rat.divInt_eq_div]
  conv_rhs => rw [← Rat.num_div_den a, ← Rat.num_div_den b]
  push_cast
  rw [div_mul_div_comm]

theorem qNeg_eq (a : ℚ) : qNeg a = -a := by
  rw [qNeg, Rat.divInt_eq_div]
  conv_rhs => rw [← Rat.num_div_den a]
  push_cast
  rw [neg_div]

theorem qDiv_eq (a b : ℚ) : qDiv a b = a / b := by
  rcases eq_or_ne b 0 with rfl | hb0
  · simp [qDiv, qMul_eq]
  · rw [qDiv, qMul_eq, div_eq_mul_inv, Rat.inv_def' b]

theorem qPowTen_pos (e : ℤ) : 0 < qPowTen e := by
  rw [qPowTen]
  split
  · exact_mod_cast Nat.pos_pow_of_pos e.toNat (by norm_num)
  · rw [Rat.divInt_eq_div]
    apply div_pos one_pos
    exact_mod_cast Nat.pos_pow_of_pos (-e).toNat (by norm_num)

theorem jsRound_eq (q : ℚ) : jsRound q = ⌊q + 1/2⌋ := by
  rw [jsRound, qAdd_eq, Rat.divInt_eq_div]
  norm_num

theorem toFloatScore2_bounds {x : ℚ} (h1 : 1 ≤ x) (h5 : x ≤ 5) :
    1 ≤ Personalized.toFloatScore x ∧ Personalized.toFloatScore x ≤ 5 := by
  rw [Personalized.toFloatScore, jsRound_eq, qMul_eq, Rat.divInt_eq_div]
  have hlo : (100 : ℤ) ≤ ⌊x * 100 + 1/2⌋ := by
    rw [Int.le_floor]
    push_cast
    linarith
  have hhi : ⌊x * 100 + 1/2⌋ ≤ (500 : ℤ) := by
    have : ⌊x * 100 + 1/2⌋ < 501 := by
      rw [Int.floor_lt]
      push_cast
      linarith
    omega
  constructor
  · rw [le_div_iff₀ (by norm_num : (0:ℚ) < ((100 : ℤ) : ℚ))]
    exact_mod_cast hlo
  · rw [div_le_iff₀ (by norm_num : (0:ℚ) < ((100 : ℤ) : ℚ))]
    exact_mod_cast hhi

/-- C3: for every raw model value `v` (modelled as a rational, of any sign
and magnitude, including values below 1, at or below 0, and above 5) and
either target column, the display score produced by `toRiskDisplay` lies in
the closed interval `[1, 5]` after clamping and two-decimal rounding. -/
theorem claim_C3 (v : ℚ) (tc : String) :
    1 ≤ (Personalized.toRiskDisplay v tc).score ∧
      (Personalized.toRiskDisplay v tc).score ≤ 5 := by
  have hbase : 1 ≤ min 5 (max 1 (if v ≤ 0 then Rat.divInt 3 2 else v)) ∧
      min 5 (max 1 (if v ≤ 0 then Rat.divInt 3 2 else v)) ≤ 5 :=
    ⟨le_min (by norm_num) (le_max_left _ _), min_le_left _ _⟩
  simpa [Personalized.toRiskDisplay] using
    toFloatScore2_bounds hbase.1 hbase.2

/-- The clamp and the one-decimal rounding inside `fallbackByDate` are the
identity on the hash value `1.5 + (n % 30)/10`, so the displayed score *is*
that value, and the level thresholds compare against it. -/
theorem fallbackByDate_eq (d : String) :
    RiskApi.fallbackByDate d =
      { score := 3/2 + ((RiskApi.charSum d % 30 : ℕ) : ℚ) / 10
        level :=
          if 3/2 + ((RiskApi.charSum d % 30 : ℕ) : ℚ) / 10 < 2 then ("low")
          else if 3/2 + ((RiskApi.charSum d % 30 : ℕ) : ℚ) / 10 < 4 then ("moderate")
          else ("high")
        label :=
          if 3/2 + ((RiskApi.charSum d % 30 : ℕ) : ℚ) / 10 < 2 then ("Low")
          else if 3/2 + ((RiskApi.charSum d % 30 : ℕ) : ℚ) / 10 < 4 then ("Moderate")
          else ("High") } := by
  have hk : RiskApi.charSum d % 30 < 30 := Nat.mod_lt _ (by norm_num)
  set k := RiskApi.charSum d % 30 with hkdef
  have hknn : (0 : ℚ) ≤ (k : ℚ) := by positivity
  have hkle : (k : ℚ) ≤ 29 := by exact_mod_cast Nat.le_of_lt_succ hk
  have hscore : qAdd (Rat.divInt 3 2) (Rat.divInt ((k : ℕ) : ℤ) 10) =
      3/2 + (k : ℚ)/10 := by
    rw [qAdd_eq, Rat.divInt_eq_div, Rat.divInt_eq_div]
    push_cast
    ring
  have hq1 : (1 : ℚ) ≤ 3/2 + (k : ℚ)/10 := by linarith
  have hq5 : 3/2 + (k : ℚ)/10 ≤ 5 := by linarith
  have hclamp : min 5 (max 1 (3/2 + (k : ℚ)/10)) = 3/2 + (k : ℚ)/10 := by
    rw [max_eq_right hq1, min_eq_right hq5]
  have hmul : (3/2 + (k : ℚ)/10) * 10 = ((15 + k : ℤ) : ℚ) := by
    push_cast
    ring
  have hround : jsRound (qMul (3/2 + (k : ℚ)/10) 10) = 15 + (k : ℤ) := by
    rw [jsRound_eq, qMul_eq, hmul, Int.floor_int_add]
    norm_num
  have hdiv : Rat.divInt (15 + (k : ℤ)) 10 = 3/2 + (k : ℚ)/10 := by
    rw [Rat.divInt_eq_div]
    push_cast
    ring
  show RiskApi.fallbackByDate d = _
  rw [RiskApi.fallbackByDate]
  simp only [hscore, hclamp, hround, hdiv, ← hkdef]
  split_ifs <;> simp_all

/-- C2 counterexample: the claim says a display score of exactly 2 is
classified `"low"`, but the `fallbackByDate` score-to-tier mapping of the
risk route classifies the date 2025-01-01, whose hashed display score is
exactly 2, as `"moderate"`. -/
theorem claim_C2_counterexample :
    (RiskApi.fallbackByDate ("2025-01-01")).score = 2 ∧
      (RiskApi.fallbackByDate ("2025-01-01")).level = "moderate" ∧
      (RiskApi.fallbackByDate ("2025-01-01")).level ≠ "low" := by
  decide

/-- C2 amended: the two score-to-tier mappings use different boundary
conventions.  `toRiskDisplay` (personalized route) classifies `"low"` iff
score ≤ 2, `"moderate"` iff 2 < score ≤ 4 and `"high"` iff score > 4 — so
there a score of exactly 2 is low and exactly 4 moderate, as the claim
states.  The risk route fallback `fallbackByDate`, however, uses strict
thresholds: `"low"` iff score < 2, `"moderate"` iff 2 ≤ score < 4, `"high"`
iff score ≥ 4 — so a score of exactly 2 is moderate and exactly 4 high
there. -/
theorem claim_C2 (v : ℚ) (tc : String) (d : String) :
    (((Personalized.toRiskDisplay v tc).level = "low" ↔
        (Personalized.toRiskDisplay v tc).score ≤ 2) ∧
      ((Personalized.toRiskDisplay v tc).level = "moderate" ↔
        2 < (Personalized.toRiskDisplay v tc).score ∧
          (Personalized.toRiskDisplay v tc).score ≤ 4) ∧
      ((Personalized.toRiskDisplay v tc).level = "high" ↔
        4 < (Personalized.toRiskDisplay v tc).score)) ∧
    (((RiskApi.fallbackByDate d).level = "low" ↔
        (RiskApi.fallbackByDate d).score < 2) ∧
      ((RiskApi.fallbackByDate d).level = "moderate" ↔
        2 ≤ (RiskApi.fallbackByDate d).score ∧
          (RiskApi.fallbackByDate d).score < 4) ∧
      ((RiskApi.fallbackByDate d).level = "high" ↔
        4 ≤ (RiskApi.fallbackByDate d).score)) := by
  constructor
  · rw [Personalized.toRiskDisplay]
    simp only
    set s := Personalized.toFloatScore
      (min 5 (max 1 (if v ≤ 0 then Rat.divInt 3 2 else v))) with hs
    split_ifs with h1 h2 <;>
      refine ⟨?_, ?_, ?_⟩ <;> simp_all <;> linarith
  · rw [fallbackByDate_eq]
    simp only
    split_ifs with h1 h2 <;>
      refine ⟨?_, ?_, ?_⟩ <;> simp_all <;> linarith


/-- C6: the locally-synthesized placeholder risk data is a deterministic
pure function of the request date.  The fallback response of the risk route
is unchanged under arbitrary variation of every other ambient input (exit
status, stderr), its score is the fixed hash of the date character codes,
and the scores/levels/labels of the personalized route fallback days do not
depend on the environment flag or the stderr text. -/
theorem claim_C6 (d : String) (s1 s2 : Option ℤ) (e1 e2 : String)
    (now : Ymd) (dev1 dev2 : Bool) (r1 r2 : Option String) :
    RiskApi.riskGET d none s1 e1 = RiskApi.riskGET d none s2 e2 ∧
    (RiskApi.riskGET d none s1 e1).score =
      RiskApi.toFloatScore (3/2 + ((RiskApi.charSum d % 30 : ℕ) : ℚ) / 10) ∧
    ((Personalized.fallbackDays now dev1 r1).days.map Personalized.DayEntry.risk) =
      ((Personalized.fallbackDays now dev2 r2).days.map Personalized.DayEntry.risk) := by
  refine ⟨rfl, ?_, rfl⟩
  rw [RiskApi.riskGET]
  simp only
  rw [fallbackByDate_eq]

/-- C9 amended: the check-in POST clamps (but does not round) each symptom
field, so the stored wheeze, cough and chestTightness lie in the closed
interval `[0, 3]` — not necessarily in the set `{0, 1, 2, 3}` — and the
stored exerciseMinutes lies in `[0, 1440]`; a missing or non-numeric
symptom field is stored as 0. -/
theorem claim_C9 (body : Users.CheckInBody) (today : String) :
    (0 ≤ (Users.normalizeCheckIn body today).wheeze ∧
      (Users.normalizeCheckIn body today).wheeze ≤ 3) ∧
    (0 ≤ (Users.normalizeCheckIn body today).cough ∧
      (Users.normalizeCheckIn body today).cough ≤ 3) ∧
    (0 ≤ (Users.normalizeCheckIn body today).chestTightness ∧
      (Users.normalizeCheckIn body today).chestTightness ≤ 3) ∧
    (0 ≤ (Users.normalizeCheckIn body today).exerciseMinutes ∧
      (Users.normalizeCheckIn body today).exerciseMinutes ≤ 1440) ∧
    (jvIsNum body.wheeze = false →
      (Users.normalizeCheckIn body today).wheeze = 0) ∧
    (jvIsNum body.cough = false →
      (Users.normalizeCheckIn body today).cough = 0) ∧
    (jvIsNum body.chestTightness = false →
      (Users.normalizeCheckIn body today).chestTightness = 0) := by
  have hb : ∀ (x : Option Users.Jv) (hi : ℚ), 0 < hi →
      0 ≤ min hi (max 0 (Users.numOrZero x)) ∧
        min hi (max 0 (Users.numOrZero x)) ≤ hi := by
    intro x hi hhi
    exact ⟨le_min hhi.le (le_max_left _ _), min_le_left _ _⟩
  have hz : ∀ x : Option Users.Jv, jvIsNum x = false →
      min (3 : ℚ) (max 0 (Users.numOrZero x)) = 0 := by
    intro x hx
    have : Users.numOrZero x = 0 := by
      rcases x with _ | j
      · rfl
      · rcases j with q | _
        · simp [jvIsNum] at hx
        · rfl
    rw [this]
    norm_num
  refine ⟨?_, ?_, ?_, ?_, ?_, ?_, ?_⟩
  · exact hb body.wheeze 3 (by norm_num)
  · exact hb body.cough 3 (by norm_num)
  · exact hb body.chestTightness 3 (by norm_num)
  · exact hb body.exerciseMinutes 1440 (by norm_num)
  · exact fun h => hz body.wheeze h
  · exact fun h => hz body.cough h
  · exact fun h => hz body.chestTightness h

/-- C9 counterexample: a client-supplied fractional wheeze of 1.5 survives
the clamp unchanged, so the stored value is not in `{0, 1, 2, 3}` as the
claim requires. -/
theorem claim_C9_counterexample :
    (Users.normalizeCheckIn
        ⟨some ("2026-02-08"), some (Users.Jv.num (Rat.divInt 3 2)), none, none,
          some (Users.Jv.num 30)⟩ ("2026-02-08")).wheeze = Rat.divInt 3 2 ∧
    ¬((Users.normalizeCheckIn
        ⟨some ("2026-02-08"), some (Users.Jv.num (Rat.divInt 3 2)), none, none,
          some (Users.Jv.num 30)⟩ ("2026-02-08")).wheeze = 0 ∨
      (Users.normalizeCheckIn
        ⟨some ("2026-02-08"), some (Users.Jv.num (Rat.divInt 3 2)), none, none,
          some (Users.Jv.num 30)⟩ ("2026-02-08")).wheeze = 1 ∨
      (Users.normalizeCheckIn
        ⟨some ("2026-02-08"), some (Users.Jv.num (Rat.divInt 3 2)), none, none,
          some (Users.Jv.num 30)⟩ ("2026-02-08")).wheeze = 2 ∨
      (Users.normalizeCheckIn
        ⟨some ("2026-02-08"), some (Users.Jv.num (Rat.divInt 3 2)), none, none,
          some (Users.Jv.num 30)⟩ ("2026-02-08")).wheeze = 3) := by
  decide

/-- C10: the `days` count used by the week endpoint is always an integer in
`[1, 14]`; it is 7 when the query parameter is absent or does not parse as
a number, values below 1 are raised to 1, values above 14 are capped at 14,
and in-range values are used as-is. -/
theorem claim_C10 (p : Option String) :
    (1 ≤ WeekApi.weekDays p ∧ WeekApi.weekDays p ≤ 14) ∧
    (p = none → WeekApi.weekDays p = 7) ∧
    (∀ s, p = some s → WeekApi.jsParseInt s = none → WeekApi.weekDays p = 7) ∧
    (∀ s v, p = some s → WeekApi.jsParseInt s = some v → v < 1 →
      WeekApi.weekDays p = 1) ∧
    (∀ s v, p = some s → WeekApi.jsParseInt s = some v → 14 < v →
      WeekApi.weekDays p = 14) ∧
    (∀ s v, p = some s → WeekApi.jsParseInt s = some v → 1 ≤ v → v ≤ 14 →
      WeekApi.weekDays p = v) := by
  rcases p with _ | s
  · refine ⟨by norm_num [WeekApi.weekDays], fun _ => rfl, ?_, ?_, ?_, ?_⟩ <;>
      intro s hs <;> simp_all
  · by_cases hs : s = ""
    · subst hs
      have hp : WeekApi.jsParseInt ("") = none := rfl
      refine ⟨by norm_num [WeekApi.weekDays], by simp, ?_, ?_, ?_, ?_⟩
      · intro t ht _
        rfl
      all_goals
        intro t v ht hv
        rw [Option.some.injEq] at ht
        subst ht
        rw [hp] at hv
        simp at hv
    · rcases h : WeekApi.jsParseInt s with _ | v
      · have hw : WeekApi.weekDays (some s) = 7 := by
          simp [WeekApi.weekDays, hs, h]
        refine ⟨by rw [hw]; norm_num, by simp, ?_, ?_, ?_, ?_⟩
        · intro t ht _
          rw [Option.some.injEq] at ht
          subst ht
          exact hw
        all_goals
          intro t v ht hv
          rw [Option.some.injEq] at ht
          subst ht
          rw [h] at hv
          simp at hv
      · have hc1 : (1 : ℤ) ≤ min 14 (max 1 v) :=
          le_min (by norm_num) (le_max_left _ _)
        have hc14 : min 14 (max 1 v) ≤ (14 : ℤ) := min_le_left _ _
        have hw : WeekApi.weekDays (some s) = min 14 (max 1 v) := by
          simp only [WeekApi.weekDays, hs, if_false, h]
          split_ifs with h0
          · omega
          · rfl
        refine ⟨by rw [hw]; exact ⟨hc1, hc14⟩, by simp, ?_, ?_, ?_, ?_⟩
        · intro t ht hv
          rw [Option.some.injEq] at ht
          subst ht
          rw [h] at hv
          simp at hv
        all_goals
          intro t w ht hv
          rw [Option.some.injEq] at ht
          subst ht
          rw [h, Option.some.injEq] at hv
          subst hv
          rw [hw]
          intros
          omega

/-- C4: the data model requires at most one check-in per (user, date), but
`addCheckIn` appends with a bare push and no per-date filter or unique
index.  Failing input, evaluated: after user a@b.c submits two check-ins
dated 2026-02-08, the stored collection holds two records for that
(user, date) pair. -/
theorem claim_C4_code_bug :
    Users.checkInsOn
      (Users.addCheckIn
        (Users.addCheckIn [⟨("a@b.c"), []⟩] ("a@b.c")
          ⟨("2026-02-08"), 1, 0, 0, 30⟩)
        ("a@b.c") ⟨("2026-02-08"), 2, 1, 0, 0⟩)
      ("a@b.c") ("2026-02-08") = 2 := by
  decide

theorem fallbackDays_spec (now : Ymd) (isDev : Bool) (ds : Option String) :
    (Personalized.fallbackDays now isDev ds).status = 200 ∧
    (Personalized.fallbackDays now isDev ds).fromModel = false ∧
    (Personalized.fallbackDays now isDev ds).days.length = 7 ∧
    ((Personalized.fallbackDays now isDev ds).days.map
        (fun e => e.risk.score)) =
      [Rat.divInt 3 2, 2, Rat.divInt 5 2, 3, Rat.divInt 7 2, 4,
        Rat.divInt 9 2] ∧
    ((Personalized.fallbackDays now isDev ds).fallbackReason ≠ none →
      isDev = true) := by
  refine ⟨rfl, rfl, ?_, ?_, ?_⟩
  · simp [Personalized.fallbackDays]
  · rw [Personalized.fallbackDays.eq_def]
    simp only
    have h7 : List.range 7 = [0, 1, 2, 3, 4, 5, 6] := rfl
    rw [h7]
    simp only [List.map_cons, List.map_nil]
    decide
  · rw [Personalized.fallbackDays.eq_def]
    simp only
    rcases ds with _ | s
    · simp
    · dsimp only
      split_ifs with hc
      · intro
        simpa using hc.1
      · simp

/-- C5: whenever the spawned predictor fails — non-zero (or null) exit
status, empty trimmed stdout, or stdout that does not parse as JSON — the
personalized risk endpoint still responds with HTTP 200 carrying a complete
set of 7 synthesized placeholder days (the fixed score ladder
1.5, 2, 2.5, 3, 3.5, 4, 4.5), and a failure reason is attached to the body
only when running in a development environment. -/
theorem claim_C5 (userId : Option String) (status : Option ℤ)
    (stdout stderr : String) (parsed : Option (List PredRow)) (isDev : Bool)
    (now : Ymd)
    (hfail : ¬(status = some 0) ∨ stdout = "" ∨ parsed = none) :
    (Personalized.personalizedGET userId status stdout stderr parsed isDev
        now).status = 200 ∧
    (Personalized.personalizedGET userId status stdout stderr parsed isDev
        now).fromModel = false ∧
    (Personalized.personalizedGET userId status stdout stderr parsed isDev
        now).days.length = 7 ∧
    ((Personalized.personalizedGET userId status stdout stderr parsed isDev
        now).days.map (fun e => e.risk.score)) =
      [Rat.divInt 3 2, 2, Rat.divInt 5 2, 3, Rat.divInt 7 2, 4,
        Rat.divInt 9 2] ∧
    ((Personalized.personalizedGET userId status stdout stderr parsed isDev
        now).fallbackReason ≠ none → isDev = true) := by
  by_cases hcond : status = some 0 ∧ stdout ≠ ""
  · have hp : parsed = none := by tauto
    subst hp
    rw [Personalized.personalizedGET.eq_def, if_pos hcond]
    exact fallbackDays_spec now isDev none
  · rw [Personalized.personalizedGET.eq_def, if_neg hcond]
    exact fallbackDays_spec now isDev (some stderr)

/-- C5 witness: a concrete failed spawn (exit status 1, empty stdout) in a
development environment. -/
theorem claim_C5_witness :
    (Personalized.personalizedGET none (some 1) ("") ("boom") none true
        ⟨2026, 2, 8⟩).status = 200 ∧
    (Personalized.personalizedGET none (some 1) ("") ("boom") none true
        ⟨2026, 2, 8⟩).fromModel = false ∧
    (Personalized.personalizedGET none (some 1) ("") ("boom") none true
        ⟨2026, 2, 8⟩).days.length = 7 ∧
    ((Personalized.personalizedGET none (some 1) ("") ("boom") none true
        ⟨2026, 2, 8⟩).days.map (fun e => e.risk.score)) =
      [Rat.divInt 3 2, 2, Rat.divInt 5 2, 3, Rat.divInt 7 2, 4,
        Rat.divInt 9 2] ∧
    ((Personalized.personalizedGET none (some 1) ("") ("boom") none true
        ⟨2026, 2, 8⟩).fallbackReason ≠ none → true = true) :=
  claim_C5 none (some 1) ("") ("boom") none true ⟨2026, 2, 8⟩ (by decide)

/-- C7: `parseHeightToMeters` and `parseWeightToKg` are total (they never
throw, being plain functions) and return either a positive number or `none`
on every input; and whenever either parse yields `none`, `computeBmi`
yields `none` rather than failing. -/
theorem claim_C7 (h w : String) :
    (∀ v, Bmi.parseHeightToMeters h = some v → 0 < v) ∧
    (∀ v, Bmi.parseWeightToKg w = some v → 0 < v) ∧
    ((Bmi.parseHeightToMeters h = none ∨ Bmi.parseWeightToKg w = none) →
      Bmi.computeBmi (Bmi.parseHeightToMeters h) (Bmi.parseWeightToKg w) =
        none) := by
  refine ⟨?_, ?_, ?_⟩
  · intro v hv
    rw [Bmi.parseHeightToMeters] at hv
    split at hv
    · exact absurd hv (by simp)
    · split at hv
      · split at hv
        · rename_i cm hcm hcond
          rw [Option.some.injEq] at hv
          subst hv
          rw [qDiv_eq]
          exact div_pos hcond.1 (by norm_num)
        · exact absurd hv (by simp)
      · split at hv
        · split at hv
          · rename_i m hm hcond
            rw [Option.some.injEq] at hv
            subst hv
            exact hcond.1
          · exact absurd hv (by simp)
        · split at hv
          · split at hv
            · rename_i ft inch hfi hcond
              rw [Option.some.injEq] at hv
              subst hv
              rw [qAdd_eq, qMul_eq, qMul_eq]
              have hX : (0 : ℚ) < Rat.divInt 3048 10000 := by decide
              have hY : (0 : ℚ) ≤ Rat.divInt 254 10000 := by decide
              have hft : (0 : ℚ) < (ft : ℚ) := by
                have h2ft : (2 : ℕ) ≤ ft := hcond.1
                exact_mod_cast lt_of_lt_of_le (by norm_num) h2ft
              have h1 := mul_pos hft hX
              have h2 := mul_nonneg hcond.2.2.1 hY
              linarith
            · exact absurd hv (by simp)
          · split at hv
            · split at hv
              · rename_i ft hft hcond
                rw [Option.some.injEq] at hv
                subst hv
                rw [qMul_eq]
                have hX : (0 : ℚ) < Rat.divInt 3048 10000 := by decide
                have hftq : (0 : ℚ) < (ft : ℚ) := by
                  have h2ft : (2 : ℕ) ≤ ft := hcond.1
                  exact_mod_cast lt_of_lt_of_le (by norm_num) h2ft
                exact mul_pos hftq hX
              · exact absurd hv (by simp)
            · exact absurd hv (by simp)
  · intro v hv
    rw [Bmi.parseWeightToKg] at hv
    split at hv
    · exact absurd hv (by simp)
    · split at hv
      · split at hv
        · rename_i kg hkg hcond
          rw [Option.some.injEq] at hv
          subst hv
          exact hcond.1
        · exact absurd hv (by simp)
      · split at hv
        · split at hv
          · rename_i lbs hlbs hcond
            rw [Option.some.injEq] at hv
            subst hv
            rw [qDiv_eq]
            exact div_pos hcond.1 (by decide)
          · exact absurd hv (by simp)
        · split at hv
          · exact absurd hv (by simp)
          · rename_i num hnum
            split at hv
            · exact absurd hv (by simp)
            · rename_i hpos
              split at hv
              · split at hv
                · rw [Option.some.injEq] at hv
                  subst hv
                  exact lt_of_not_le hpos
                · exact absurd hv (by simp)
              · rw [Option.some.injEq] at hv
                subst hv
                rw [qDiv_eq]
                exact div_pos (lt_of_not_le hpos) (by decide)
  · intro hor
    rcases hor with h1 | h1
    · rw [h1]
      rcases Bmi.parseWeightToKg w with _ | q <;> rfl
    · rw [h1]
      rcases Bmi.parseHeightToMeters h with _ | q <;> rfl

/-- C7 witness: the parsers accept imperial and metric forms, the theorem
yields positivity on those results, and an unparsable height makes the BMI
`none`. -/
theorem claim_C7_witness :
    Bmi.parseHeightToMeters ("5'10\"") = some (Rat.divInt 17780 10000) ∧
    Bmi.parseHeightToMeters ("173 cm") = some (Rat.divInt 173 100) ∧
    Bmi.parseWeightToKg ("170 lbs") = some (Rat.divInt 170000 2205) ∧
    Bmi.parseWeightToKg ("68 kg") = some (68 : ℚ) ∧
    0 < Rat.divInt 17780 10000 ∧
    0 < Rat.divInt 170000 2205 ∧
    Bmi.computeBmi (Bmi.parseHeightToMeters ("not a height"))
      (Bmi.parseWeightToKg ("170 lbs")) = none :=
  ⟨by decide, by decide, by decide, by decide,
    (claim_C7 ("5'10\"") ("170 lbs")).1 (Rat.divInt 17780 10000) (by decide),
    (claim_C7 ("5'10\"") ("170 lbs")).2.1 (Rat.divInt 170000 2205) (by decide),
    (claim_C7 ("not a height") ("170 lbs")).2.2 (Or.inl (by decide))⟩


theorem takeWhile_append_of_all {α : Type} (p : α → Bool) (ds rest : List α)
    (h : ∀ c ∈ ds, p c = true) :
    List.takeWhile p (ds ++ rest) = ds ++ List.takeWhile p rest := by
  induction ds with
  | nil => rfl
  | cons d ds ih =>
    rw [List.cons_append, List.takeWhile_cons_of_pos (h d (by simp)),
      ih (fun c hc => h c (by simp [hc])), List.cons_append]

theorem digit_ne_dash {c : Char} (h : c.isDigit = true) :
    (decide (c ≠ '-')) = true := by
  rcases eq_or_ne c '-' with rfl | hne
  · simp at h
  · simpa using hne

theorem chompUnsignedNum_rest_mem (cs : List Char) (v : ℚ) (r : List Char)
    (h : WeekApi.chompUnsignedNum cs = some (v, r)) : ∀ c ∈ r, c ∈ cs := by
  rw [WeekApi.chompUnsignedNum] at h
  split at h
  · exact absurd h (by simp)
  · split at h
    · rename_i rdot heq
      rw [Option.some.injEq, Prod.mk.injEq] at h
      intro c hc
      rw [← h.2] at hc
      have h3 : c ∈ rdot := (List.dropWhile_sublist _).subset hc
      have h4 : c ∈ ('.' :: rdot) := List.mem_cons_of_mem _ h3
      rw [← heq] at h4
      exact (List.dropWhile_sublist _).subset h4
    · rw [Option.some.injEq, Prod.mk.injEq] at h
      intro c hc
      rw [← h.2] at hc
      exact (List.dropWhile_sublist _).subset hc

theorem chompSignedNum_rest_mem (cs : List Char) (v : ℚ) (r : List Char)
    (h : WeekApi.chompSignedNum cs = some (v, r)) : ∀ c ∈ r, c ∈ cs := by
  rcases cs with _ | ⟨c0, t⟩
  · exact chompUnsignedNum_rest_mem [] v r h
  · rw [WeekApi.chompSignedNum] at h
    split_ifs at h with hdash
    · split at h
      · exact absurd h (by simp)
      · rename_i vr heq
        rw [Option.some.injEq, Prod.mk.injEq] at h
        intro c hc
        rw [← h.2] at hc
        exact List.mem_cons_of_mem _
          (chompUnsignedNum_rest_mem t vr.1 vr.2 (by rw [heq]) c hc)
    · exact chompUnsignedNum_rest_mem (c0 :: t) v r h

theorem latLonMatch_none_of_no_comma (cs : List Char)
    (h : ∀ c ∈ cs, c ≠ ',') : WeekApi.latLonMatch cs = none := by
  rw [WeekApi.latLonMatch]
  split
  · rfl
  · rename_i a r heq
    rcases r with _ | ⟨c, r2⟩
    · rfl
    · dsimp only
      split_ifs with hcomma
      · exfalso
        subst hcomma
        exact h ',' (chompSignedNum_rest_mem cs a _ heq ',' (by simp)) rfl
      · rfl

theorem round4_close (q : ℚ) : |WeekApi.round4 q - q| ≤ 1 / 20000 := by
  rw [WeekApi.round4, jsRound_eq, qMul_eq, Rat.divInt_eq_div]
  have h1 : ((⌊q * 10000 + 1/2⌋ : ℤ) : ℚ) ≤ q * 10000 + 1/2 :=
    Int.floor_le _
  have h2 : q * 10000 + 1/2 - 1 < ((⌊q * 10000 + 1/2⌋ : ℤ) : ℚ) :=
    Int.sub_one_lt_floor _
  rw [abs_le]
  constructor
  · rw [le_sub_iff_add_le,
      le_div_iff₀ (by norm_num : (0:ℚ) < ((10000 : ℤ) : ℚ))]
    push_cast
    push_cast at h2
    linarith
  · rw [sub_le_iff_le_add,
      div_le_iff₀ (by norm_num : (0:ℚ) < ((10000 : ℤ) : ℚ))]
    push_cast
    push_cast at h1
    linarith

/-- C8: location-identifier normalization.  For every trimmed input
matching the `lat,lon` regex, `toLocationId` returns the two coordinates
each rounded to 4 decimal places (an exact multiple of 1/10000 within half
of 1/10000 of the raw value) rendered and joined with `_`; for every input
matching the 5-digit ZIP regex (with or without a `-XXXX` extension) it
returns `zip_` followed by exactly the five leading digits. -/
theorem claim_C8 (s : String) :
    (∀ a b, WeekApi.latLonMatch (jsTrim s).data = some (a, b) →
      WeekApi.toLocationId (some s) =
        some ⟨WeekApi.fmtTimes10000 (jsRound (qMul a 10000)) ++
              '_' :: WeekApi.fmtTimes10000 (jsRound (qMul b 10000))⟩ ∧
      (∃ ka : ℤ, WeekApi.round4 a = (ka : ℚ) / 10000 ∧
        |WeekApi.round4 a - a| ≤ 1 / 20000) ∧
      (∃ kb : ℤ, WeekApi.round4 b = (kb : ℚ) / 10000 ∧
        |WeekApi.round4 b - b| ≤ 1 / 20000)) ∧
    (WeekApi.zipMatch (jsTrim s).data = true →
      WeekApi.toLocationId (some s) =
        some ⟨'z' :: 'i' :: 'p' :: '_' :: (jsTrim s).data.take 5⟩ ∧
      ((jsTrim s).data.take 5).length = 5 ∧
      (((jsTrim s).data.take 5).all Char.isDigit) = true) := by
  constructor
  · intro a b hll
    have hne : ¬(jsTrim s = "") := by
      intro h0
      rw [h0] at hll
      have hnil : WeekApi.latLonMatch ("".data) = none := rfl
      rw [hnil] at hll
      exact Option.noConfusion hll
    refine ⟨?_, ⟨jsRound (qMul a 10000), ?_, round4_close a⟩,
      ⟨jsRound (qMul b 10000), ?_, round4_close b⟩⟩
    · rw [WeekApi.toLocationId.eq_def]
      simp only [if_neg hne, hll]
    · rw [WeekApi.round4, Rat.divInt_eq_div]
      push_cast
      rfl
    · rw [WeekApi.round4, Rat.divInt_eq_div]
      push_cast
      rfl
  · intro hzip
    have hzipB := hzip
    rw [WeekApi.zipMatch] at hzip
    simp only [Bool.and_eq_true, decide_eq_true_eq] at hzip
    obtain ⟨⟨hlen, hdig⟩, hrest⟩ := hzip
    have hdig' : ∀ c ∈ (jsTrim s).data.take 5, Char.isDigit c = true :=
      fun c hc => List.all_eq_true.mp hdig c hc
    have hsplit : (jsTrim s).data =
        (jsTrim s).data.take 5 ++ (jsTrim s).data.drop 5 :=
      (List.take_append_drop 5 _).symm
    have hne : ¬(jsTrim s = "") := by
      intro h0
      rw [h0] at hlen
      simp at hlen
    have hdropShape : (jsTrim s).data.drop 5 = [] ∨
        ∃ ext, (jsTrim s).data.drop 5 = '-' :: ext ∧
          (∀ c ∈ ext, Char.isDigit c = true) := by
      revert hrest
      rcases hr : (jsTrim s).data.drop 5 with _ | ⟨c, ext⟩
      · intro _
        exact Or.inl rfl
      · intro hrest
        simp only [Bool.and_eq_true, decide_eq_true_eq] at hrest
        obtain ⟨⟨hdash, -⟩, hextdig⟩ := hrest
        subst hdash
        exact Or.inr ⟨ext, rfl, fun c hc => List.all_eq_true.mp hextdig c hc⟩
    have hstrip : WeekApi.stripFromDash (jsTrim s).data =
        (jsTrim s).data.take 5 := by
      rw [WeekApi.stripFromDash]
      conv_lhs => rw [hsplit]
      rw [takeWhile_append_of_all _ _ _
        (fun c hc => digit_ne_dash (hdig' c hc))]
      rcases hdropShape with h5 | ⟨ext, h5, _⟩
      · rw [h5]
        simp
      · rw [h5, List.takeWhile_cons_of_neg (by simp)]
        simp
    have hnocomma : ∀ c ∈ (jsTrim s).data, c ≠ ',' := by
      intro c hc
      rw [hsplit] at hc
      rcases List.mem_append.mp hc with h5 | h5
      · have hd := hdig' c h5
        intro hcm
        rw [hcm] at hd
        simp at hd
      · rcases hdropShape with h6 | ⟨ext, h6, hext⟩
        · rw [h6] at h5
          simp at h5
        · rw [h6] at h5
          rcases List.mem_cons.mp h5 with rfl | h7
          · intro hcm
            exact absurd hcm (by decide)
          · have hd := hext c h7
            intro hcm
            rw [hcm] at hd
            simp at hd
    have hll_none := latLonMatch_none_of_no_comma _ hnocomma
    refine ⟨?_, hlen, hdig⟩
    rw [WeekApi.toLocationId.eq_def]
    simp only [if_neg hne, hll_none, hzipB, if_true, hstrip]

/-- C8 witness: the coordinates `40.71284,-74.00601` normalize to
`40.7128_-74.006`, and `12345-6789` normalizes to `zip_12345`. -/
theorem claim_C8_witness :
    (WeekApi.toLocationId (some ("40.71284,-74.00601")) =
        some ("40.7128_-74.006") ∧
      (∃ ka : ℤ, WeekApi.round4 (Rat.divInt 4071284 100000) = (ka : ℚ) / 10000 ∧
        |WeekApi.round4 (Rat.divInt 4071284 100000) -
          Rat.divInt 4071284 100000| ≤ 1 / 20000)) ∧
    WeekApi.toLocationId (some ("12345-6789")) = some ("zip_12345") := by
  have hmatch : WeekApi.latLonMatch ((jsTrim ("40.71284,-74.00601")).data) =
      some (Rat.divInt 4071284 100000, Rat.divInt (-7400601) 100000) := by
    decide
  have h1 := (claim_C8 ("40.71284,-74.00601")).1
    (Rat.divInt 4071284 100000) (Rat.divInt (-7400601) 100000) hmatch
  have h2 := (claim_C8 ("12345-6789")).2 (by decide)
  refine ⟨⟨?_, h1.2.1⟩, ?_⟩
  · rw [h1.1]
    decide
  · rw [h2.1]
    decide

theorem lexLt_append_same (s t u : List Char) :
    lexLt (s ++ t) (s ++ u) = lexLt t u := by
  induction s with
  | nil => rfl
  | cons a s ih => simp [lexLt, ih]

theorem lexLt_append_of_lt (xs ys t u : List Char)
    (hlen : xs.length = ys.length) (h : lexLt xs ys = true) :
    lexLt (xs ++ t) (ys ++ u) = true := by
  induction xs generalizing ys with
  | nil =>
    rcases ys with _ | ⟨b, bs⟩
    · simp [lexLt] at h
    · simp at hlen
  | cons a as ih =>
    rcases ys with _ | ⟨b, bs⟩
    · simp at hlen
    · rw [lexLt, Bool.or_eq_true, Bool.and_eq_true] at h
      rw [List.cons_append, List.cons_append, lexLt, Bool.or_eq_true]
      rcases h with h | ⟨heq, hrec⟩
      · exact Or.inl h
      · exact Or.inr (by
          rw [Bool.and_eq_true]
          exact ⟨heq, ih bs (by simpa using hlen) hrec⟩)

theorem lexLt_asymm (u v : List Char) (h : lexLt u v = true) :
    lexLt v u = false := by
  induction u generalizing v with
  | nil =>
    rcases v with _ | ⟨b, bs⟩
    · simp [lexLt] at h
    · rfl
  | cons a as ih =>
    rcases v with _ | ⟨b, bs⟩
    · simp [lexLt] at h
    · rw [lexLt, Bool.or_eq_true, Bool.and_eq_true, decide_eq_true_eq,
        decide_eq_true_eq] at h
      rw [lexLt, Bool.or_eq_false_iff, Bool.and_eq_false_iff]
      rcases h with h | ⟨heq, hrec⟩
      · exact ⟨by simp; omega, Or.inl (by simp; omega)⟩
      · exact ⟨by simp; omega, Or.inr (ih bs hrec)⟩

theorem pad2_lt_succ : ∀ d, d < 99 → lexLt (pad2 d) (pad2 (d + 1)) = true := by
  decide

theorem digitChar_lt_succ : ∀ p, p < 9 →
    (digitChar p).toNat < (digitChar (p + 1)).toNat := by
  decide

theorem digitChar_congr {p q : ℕ} (h : p = q) : digitChar p = digitChar q := by
  rw [h]

theorem lexLt4 (a1 a2 a3 a4 b1 b2 b3 b4 : Char)
    (h : a1.toNat < b1.toNat ∨ (a1 = b1 ∧ (a2.toNat < b2.toNat ∨ (a2 = b2 ∧
      (a3.toNat < b3.toNat ∨ (a3 = b3 ∧ a4.toNat < b4.toNat)))))) :
    lexLt [a1, a2, a3, a4] [b1, b2, b3, b4] = true := by
  simp only [lexLt, Bool.or_eq_true, Bool.and_eq_true, decide_eq_true_eq]
  rcases h with h | ⟨rfl, h | ⟨rfl, h | ⟨rfl, h⟩⟩⟩
  · exact Or.inl h
  · exact Or.inr ⟨rfl, Or.inl h⟩
  · exact Or.inr ⟨rfl, Or.inr ⟨rfl, Or.inl h⟩⟩
  · exact Or.inr ⟨rfl, Or.inr ⟨rfl, Or.inr ⟨rfl, Or.inl h⟩⟩⟩

theorem pad4_lt_succ (y : ℕ) (hy : y < 9999) :
    lexLt (pad4 y) (pad4 (y + 1)) = true := by
  rw [pad4, pad4]
  by_cases c4 : y % 10 < 9
  · refine lexLt4 _ _ _ _ _ _ _ _ (Or.inr ⟨digitChar_congr (by omega),
      Or.inr ⟨digitChar_congr (by omega), Or.inr ⟨digitChar_congr (by omega),
        ?_⟩⟩⟩)
    have e4 : (y + 1) % 10 = y % 10 + 1 := by omega
    rw [e4]
    exact digitChar_lt_succ _ c4
  · by_cases c3 : y / 10 % 10 < 9
    · refine lexLt4 _ _ _ _ _ _ _ _ (Or.inr ⟨digitChar_congr (by omega),
        Or.inr ⟨digitChar_congr (by omega), Or.inl ?_⟩⟩)
      have e3 : (y + 1) / 10 % 10 = y / 10 % 10 + 1 := by omega
      rw [e3]
      exact digitChar_lt_succ _ c3
    · by_cases c2 : y / 100 % 10 < 9
      · refine lexLt4 _ _ _ _ _ _ _ _ (Or.inr ⟨digitChar_congr (by omega),
          Or.inl ?_⟩)
        have e2 : (y + 1) / 100 % 10 = y / 100 % 10 + 1 := by omega
        rw [e2]
        exact digitChar_lt_succ _ c2
      · refine lexLt4 _ _ _ _ _ _ _ _ (Or.inl ?_)
        have e1 : (y + 1) / 1000 % 10 = y / 1000 % 10 + 1 := by omega
        rw [e1]
        exact digitChar_lt_succ _ (by omega)

theorem one_le_daysInMonth (y m : ℕ) : 1 ≤ daysInMonth y m := by
  rw [daysInMonth]
  split_ifs <;> norm_num

theorem daysInMonth_le_31 (y m : ℕ) : daysInMonth y m ≤ 31 := by
  rw [daysInMonth]
  split_ifs <;> norm_num

theorem valid_nextDay {a : Ymd} (h : a.valid) : (nextDay a).valid := by
  obtain ⟨hm1, hm12, hd1, hdm⟩ := h
  rw [nextDay]
  split_ifs with h1 h2
  · exact ⟨hm1, hm12, Nat.le_succ_of_le hd1, h1⟩
  · exact ⟨Nat.succ_le_succ (Nat.zero_le _), h2, le_refl 1,
      one_le_daysInMonth _ _⟩
  · exact ⟨le_refl 1, by norm_num, le_refl 1, one_le_daysInMonth _ _⟩

theorem nextDay_y_le (a : Ymd) : (nextDay a).y ≤ a.y + 1 := by
  rw [nextDay]
  split_ifs <;> simp

theorem addDays_valid {a : Ymd} (h : a.valid) (i : ℕ) :
    (addDays a i).valid := by
  induction i with
  | zero => exact h
  | succ n ih => exact valid_nextDay ih

theorem addDays_y_le (a : Ymd) (i : ℕ) : (addDays a i).y ≤ a.y + i := by
  induction i with
  | zero => exact le_refl _
  | succ n ih =>
    calc (addDays a (n + 1)).y ≤ (addDays a n).y + 1 := nextDay_y_le _
    _ ≤ a.y + n + 1 := by omega

theorem lexLt_common_front (p t u : List Char) (h : lexLt t u = true) :
    lexLt (p ++ t) (p ++ u) = true := by
  rw [lexLt_append_same]
  exact h

theorem lexLt_render_nextDay (a : Ymd) (hv : a.valid) (hy : a.y < 9999) :
    lexLt (toLocalDateStr a).data (toLocalDateStr (nextDay a)).data = true := by
  obtain ⟨hm1, hm12, hd1, hdm⟩ := hv
  rw [toLocalDateStr, nextDay]
  split_ifs with h1 h2
  · exact lexLt_common_front (pad4 a.y ++ '-' :: pad2 a.m ++ ['-'])
      (pad2 a.d) (pad2 (a.d + 1))
      (pad2_lt_succ a.d (by
        have := daysInMonth_le_31 a.y a.m
        omega))
  · exact lexLt_common_front (pad4 a.y ++ ['-'])
      (pad2 a.m ++ '-' :: pad2 a.d) (pad2 (a.m + 1) ++ '-' :: pad2 1)
      (lexLt_append_of_lt _ _ _ _ (by simp [pad2])
        (pad2_lt_succ a.m (by omega)))
  · exact lexLt_append_of_lt (pad4 a.y) (pad4 (a.y + 1)) _ _
      (by simp [pad4]) (pad4_lt_succ a.y hy)

theorem strAscending_week (d0 : Ymd) (hv : d0.valid) (hy : d0.y + 7 ≤ 9999) :
    strAscending
      ((List.range 7).map (fun i => toLocalDateStr (addDays d0 i))) = true := by
  have hstep : ∀ i, i < 6 →
      lexLt (toLocalDateStr (addDays d0 i)).data
        (toLocalDateStr (addDays d0 (i + 1))).data = true := by
    intro i hi
    have hvi : (addDays d0 i).valid := addDays_valid hv i
    have hyi : (addDays d0 i).y < 9999 := by
      have := addDays_y_le d0 i
      omega
    exact lexLt_render_nextDay _ hvi hyi
  have h7 : List.range 7 = [0, 1, 2, 3, 4, 5, 6] := rfl
  rw [h7]
  simp only [List.map_cons, List.map_nil, strAscending, dateLtB,
    Bool.and_eq_true]
  exact ⟨hstep 0 (by norm_num), hstep 1 (by norm_num), hstep 2 (by norm_num),
    hstep 3 (by norm_num), hstep 4 (by norm_num), hstep 5 (by norm_num),
    trivial⟩

theorem sortByLe_eq_of_chain (l : List PredRow)
    (h : strAscending (l.map PredRow.date) = true) :
    sortByLe Personalized.predLe l = l := by
  induction l with
  | nil => rfl
  | cons x xs ih =>
    rcases xs with _ | ⟨y, ys⟩
    · rfl
    · rw [List.map_cons, List.map_cons, strAscending, Bool.and_eq_true] at h
      have htail : sortByLe Personalized.predLe (y :: ys) = y :: ys :=
        ih (by rw [List.map_cons]; exact h.2)
      rw [sortByLe, htail, insertLe, if_pos]
      have hasym := lexLt_asymm _ _ h.1
      simp [Personalized.predLe, dateLtB, hasym]

theorem specOut_dates (uid : String) (start : Ymd) (risks : ℕ → ℚ) :
    (Personalized.specPredictOut uid start risks).map PredRow.date =
      (List.range 7).map (fun i => toLocalDateStr (addDays start i)) := by
  rw [Personalized.specPredictOut, List.map_map]
  rfl

theorem specOut_length (uid : String) (start : Ymd) (risks : ℕ → ℚ) :
    (Personalized.specPredictOut uid start risks).length = 7 := by
  simp [Personalized.specPredictOut]

theorem specOut_filter (uid : String) (start : Ymd) (risks : ℕ → ℚ) :
    (Personalized.specPredictOut uid start risks).filter
      (fun p => p.user_id = uid) = Personalized.specPredictOut uid start risks := by
  apply List.filter_eq_self.mpr
  intro p hp
  rw [Personalized.specPredictOut] at hp
  obtain ⟨i, -, rfl⟩ := List.mem_map.mp hp
  simp

theorem specOut_isEmpty (uid : String) (start : Ymd) (risks : ℕ → ℚ) :
    (Personalized.specPredictOut uid start risks).isEmpty = false := rfl

theorem specOut_hasRisk (uid : String) (start : Ymd) (risks : ℕ → ℚ) :
    (Personalized.specPredictOut uid start risks).any
      (fun p => p.risk.isSome) = true := by
  apply List.any_eq_true.mpr
  refine ⟨⟨uid, toLocalDateStr (addDays start 0), some (risks 0), none, none⟩,
    ?_, rfl⟩
  rw [Personalized.specPredictOut]
  exact List.mem_map.mpr ⟨0, by simp, rfl⟩

theorem personalizedGET_model_days (uid stdout stderr : String) (isDev : Bool)
    (now start : Ymd) (risks : ℕ → ℚ) (hne : stdout ≠ "")
    (hasc : strAscending
      ((Personalized.specPredictOut uid start risks).map PredRow.date) = true) :
    (Personalized.personalizedGET (some uid) (some 0) stdout stderr
        (some (Personalized.specPredictOut uid start risks)) isDev now).days =
      (Personalized.specPredictOut uid start risks).map
        (Personalized.mkDay ("risk")) := by
  rw [Personalized.personalizedGET.eq_def, if_pos ⟨rfl, hne⟩]
  simp only [specOut_filter, specOut_isEmpty, specOut_hasRisk,
    Bool.false_eq_true, if_false, if_true]
  rw [sortByLe_eq_of_chain _ hasc,
    List.take_of_length_le (by rw [specOut_length])]

theorem fallback_conclusion (now : Ymd) (isDev : Bool) (ds : Option String)
    (hnow : now.valid) (hny : now.y + 7 ≤ 9999) :
    (Personalized.fallbackDays now isDev ds).days.length = 7 ∧
    strAscending ((Personalized.fallbackDays now isDev ds).days.map
      Personalized.DayEntry.date) = true ∧
    ∃ d0 : Ymd, d0.valid ∧
      (Personalized.fallbackDays now isDev ds).days.map
        Personalized.DayEntry.date =
        (List.range 7).map (fun i => toLocalDateStr (addDays d0 i)) := by
  have hmap : (Personalized.fallbackDays now isDev ds).days.map
      Personalized.DayEntry.date =
      (List.range 7).map (fun i => toLocalDateStr (addDays now i)) := by
    rw [Personalized.fallbackDays.eq_def]
    dsimp only
    rw [List.map_map]
    rfl
  refine ⟨?_, ?_, now, hnow, hmap⟩
  · rw [Personalized.fallbackDays.eq_def]
    dsimp only
    simp
  · rw [hmap]
    exact strAscending_week now hnow hny

/-- C1: for every 7-day forecast request, the personalized risk endpoint
returns exactly 7 day entries, in strictly ascending date order, and the
dates are the renderings of 7 consecutive calendar dates.  The predictor
script itself is not among the provided sources, so its output is
spec-modelled (`specPredictOut`): when the spawn succeeds and parses, the
hypothesis `hmodel` says the parsed list is that modelled output; every
failure path falls back to 7 synthesized consecutive days and is covered
too.  Days lacking environmental data are degraded inside the script per
the spec and never dropped, so the length never falls below 7. -/
theorem claim_C1 (uid : String) (status : Option ℤ) (stdout stderr : String)
    (parsed : Option (List PredRow)) (isDev : Bool) (start now : Ymd)
    (risks : ℕ → ℚ)
    (hstart : start.valid) (hsy : start.y + 7 ≤ 9999)
    (hnow : now.valid) (hny : now.y + 7 ≤ 9999)
    (hmodel : ∀ l, parsed = some l → status = some 0 → stdout ≠ "" →
      l = Personalized.specPredictOut uid start risks) :
    (Personalized.personalizedGET (some uid) status stdout stderr parsed isDev
        now).days.length = 7 ∧
    strAscending
      ((Personalized.personalizedGET (some uid) status stdout stderr parsed
          isDev now).days.map Personalized.DayEntry.date) = true ∧
    ∃ d0 : Ymd, d0.valid ∧
      ((Personalized.personalizedGET (some uid) status stdout stderr parsed
          isDev now).days.map Personalized.DayEntry.date) =
        (List.range 7).map (fun i => toLocalDateStr (addDays d0 i)) := by
  by_cases hcond : status = some 0 ∧ stdout ≠ ""
  · rcases hp : parsed with _ | l
    · subst hp
      rw [Personalized.personalizedGET.eq_def, if_pos hcond]
      exact fallback_conclusion now isDev none hnow hny
    · have hl := hmodel l hp hcond.1 hcond.2
      subst hp
      subst hl
      obtain ⟨h1, h2⟩ := hcond
      subst h1
      have hasc : strAscending
          ((Personalized.specPredictOut uid start risks).map PredRow.date) =
          true := by
        rw [specOut_dates]
        exact strAscending_week start hstart hsy
      rw [personalizedGET_model_days uid stdout stderr isDev now start risks
        h2 hasc]
      have hcomp : Personalized.DayEntry.date ∘ Personalized.mkDay ("risk") =
          PredRow.date := funext fun p => rfl
      refine ⟨?_, ?_, start, hstart, ?_⟩
      · rw [List.length_map, specOut_length]
      · rw [List.map_map, hcomp, specOut_dates]
        exact strAscending_week start hstart hsy
      · rw [List.map_map, hcomp, specOut_dates]
  · rw [Personalized.personalizedGET.eq_def, if_neg hcond]
    exact fallback_conclusion now isDev (some stderr) hnow hny

/-- C1 witness: a concrete successful spawn whose parsed output is the
modelled 7-day prediction list starting 2026-02-08. -/
theorem claim_C1_witness :
    (Personalized.personalizedGET (some ("u1")) (some 0) ("ok") ("")
        (some (Personalized.specPredictOut ("u1") ⟨2026, 2, 8⟩ (fun _ => 2)))
        false ⟨2026, 2, 8⟩).days.length = 7 ∧
    strAscending
      ((Personalized.personalizedGET (some ("u1")) (some 0) ("ok") ("")
          (some (Personalized.specPredictOut ("u1") ⟨2026, 2, 8⟩ (fun _ => 2)))
          false ⟨2026, 2, 8⟩).days.map Personalized.DayEntry.date) = true ∧
    ∃ d0 : Ymd, d0.valid ∧
      ((Personalized.personalizedGET (some ("u1")) (some 0) ("ok") ("")
          (some (Personalized.specPredictOut ("u1") ⟨2026, 2, 8⟩ (fun _ => 2)))
          false ⟨2026, 2, 8⟩).days.map Personalized.DayEntry.date) =
        (List.range 7).map (fun i => toLocalDateStr (addDays d0 i)) := by
  have h := claim_C1 ("u1") (some 0) ("ok") ("")
    (some (Personalized.specPredictOut ("u1") ⟨2026, 2, 8⟩ (fun _ => 2)))
    false ⟨2026, 2, 8⟩ ⟨2026, 2, 8⟩ (fun _ => 2)
    (by decide) (by decide) (by decide) (by decide)
    (fun l hl _ _ => (Option.some.inj hl).symm)
  exact ⟨h.1, h.2.1, h.2.2⟩


/-- C9 witness: a body whose wheeze field is a non-number is stored with
wheeze 0. -/
theorem claim_C9_witness :
    (Users.normalizeCheckIn ⟨none, some Users.Jv.nonNum, none, none, none⟩
        ("2026-02-08")).wheeze = 0 :=
  (claim_C9 ⟨none, some Users.Jv.nonNum, none, none, none⟩
      ("2026-02-08")).2.2.2.2.1 (by decide)

/-- C10 witness: a `days=20` query is capped at 14, and a non-numeric
`days=abc` falls back to 7. -/
theorem claim_C10_witness :
    WeekApi.weekDays (some ("20")) = 14 ∧
      WeekApi.weekDays (some ("abc")) = 7 :=
  ⟨(claim_C10 (some ("20"))).2.2.2.2.1 ("20") 20 rfl (by decide) (by decide),
    (claim_C10 (some ("abc"))).2.2.1 ("abc") rfl (by decide)⟩
